import Mathlib

/-!
Verification of the two command-line utilities in this repository against
their specification: the file-type sniffer (`file_type_detector.py`) and the
PIN generator (`generate_pins.py`).

Bytes are modelled as natural numbers (`Nat`), byte strings as `List Nat`.
Python dictionaries preserve insertion order, so the two lookup tables are
modelled as association lists in their declaration order.
-/

set_option maxHeartbeats 1000000

namespace FileTypeDetector

/-- A byte string: the leading bytes of a file, or a magic-number pattern. -/
abbrev Bytes := List Nat

/-- `MAGIC_DATABASE` from `file_type_detector.py`: human-readable file types
mapped to one or more magic-number byte patterns, in declaration order. -/
def MAGIC_DATABASE : List (String × List Bytes) :=
  [("JPEG", [[0xFF, 0xD8, 0xFF]]),
   ("PNG", [[0x89, 0x50, 0x4E, 0x47, 0x0D, 0x0A, 0x1A, 0x0A]]),
   ("GIF", [[0x47, 0x49, 0x46, 0x38, 0x37, 0x61], [0x47, 0x49, 0x46, 0x38, 0x39, 0x61]]),
   ("PDF", [[0x25, 0x50, 0x44, 0x46, 0x2D]]),
   ("ZIP", [[0x50, 0x4B, 0x03, 0x04], [0x50, 0x4B, 0x05, 0x06], [0x50, 0x4B, 0x07, 0x08]]),
   ("GZIP", [[0x1F, 0x8B, 0x08]]),
   ("RAR", [[0x52, 0x61, 0x72, 0x21, 0x1A, 0x07, 0x00],
            [0x52, 0x61, 0x72, 0x21, 0x1A, 0x07, 0x01, 0x00]]),
   ("7Z", [[0x37, 0x7A, 0xBC, 0xAF, 0x27, 0x1C]]),
   ("BMP", [[0x42, 0x4D]]),
   ("EXE", [[0x4D, 0x5A]]),
   ("ELF", [[0x7F, 0x45, 0x4C, 0x46]]),
   ("MP3", [[0x49, 0x44, 0x33], [0xFF, 0xFB]]),
   ("WAV", [[0x52, 0x49, 0x46, 0x46]]),
   ("FLAC", [[0x66, 0x4C, 0x61, 0x43]]),
   ("MP4", [[0x00, 0x00, 0x00]])]

/-- `EXTENSION_MAP` from `file_type_detector.py`: lowercase file extensions
(with the leading dot) mapped to the expected type name. -/
def EXTENSION_MAP : List (String × String) :=
  [(".jpg", "JPEG"),
   (".jpeg", "JPEG"),
   (".png", "PNG"),
   (".gif", "GIF"),
   (".pdf", "PDF"),
   (".zip", "ZIP"),
   (".gz", "GZIP"),
   (".rar", "RAR"),
   (".7z", "7Z"),
   (".bmp", "BMP"),
   (".exe", "EXE"),
   (".dll", "EXE"),
   (".elf", "ELF"),
   (".mp3", "MP3"),
   (".wav", "WAV"),
   (".flac", "FLAC"),
   (".mp4", "MP4")]

/-- `longest_magic_length`: length of the longest magic pattern in the
database.  Python computes `max(...)` over a generator that is nonempty for
the shipped database; `foldr max 0` agrees with it on every nonempty
database. -/
def longest_magic_length (magic_db : List (String × List Bytes)) : Nat :=
  (magic_db.flatMap fun e => e.2.map List.length).foldr max 0

/-- `detect_file_type`: scan the database in order and return the first type
one of whose magic patterns is a byte-for-byte prefix of the header; `none`
when no pattern matches (Python returns `None`). -/
def detect_file_type (header : Bytes) : List (String × List Bytes) → Option String
  | [] => none
  | (type_name, patterns) :: rest =>
    if patterns.any fun p => p.isPrefixOf header then some type_name
    else detect_file_type header rest

/-- Python's `str.lower()` on an extension: lowercase the string character by
character (as `String.toLower` does, written over the character list so that
it evaluates by `decide`). -/
def string_lower (s : String) : String :=
  ⟨s.data.map Char.toLower⟩

/-- `expected_type_from_extension`: look the lowercased suffix up in the
extension table (`extension_map.get(path.suffix.lower())`). -/
def expected_type_from_extension (suffix : String)
    (extension_map : List (String × String)) : Option String :=
  extension_map.lookup (string_lower suffix)

/-- The `if expected_type and expected_type != detected_type` / `elif not
expected_type` block of `analyze_file`, as a function of the expected and
detected types.  Python truthiness of `expected_type` is modelled exactly:
`None` and `""` are falsy, every other string is truthy. -/
def mismatch_message (expected_type : Option String) (detected_type : String) :
    Option String :=
  match expected_type with
  | some e =>
    if e ≠ "" ∧ e ≠ detected_type then
      some ("Extension suggests " ++ e ++ ", but header indicates " ++ detected_type ++ ".")
    else if e = "" then
      if detected_type ≠ "Unknown" then
        some "No known expected type for this extension."
      else none
    else none
  | none =>
    if detected_type ≠ "Unknown" then
      some "No known expected type for this extension."
    else none

/-- `analyze_file`, with the file system abstracted away: `file_bytes` is the
content of the file (the source reads its first `longest_magic_length` bytes,
modelled by `List.take`, which also covers the short-read case) and `suffix`
is `path.suffix`.  Returns `(detected type or "Unknown", expected type,
mismatch message)`.  Python's `detect_file_type(...) or "Unknown"` is
`Option.getD` here because every type name in the database is a nonempty
(truthy) string. -/
def analyze_file (file_bytes : Bytes) (suffix : String)
    (magic_db : List (String × List Bytes)) (extension_map : List (String × String)) :
    String × Option String × Option String :=
  let max_length := longest_magic_length magic_db
  let header := file_bytes.take max_length
  let detected_type := (detect_file_type header magic_db).getD "Unknown"
  let expected_type := expected_type_from_extension suffix extension_map
  (detected_type, expected_type, mismatch_message expected_type detected_type)

lemma any_isPrefixOf_eq_true {patterns : List Bytes} {header : Bytes}
    (h : ∃ p ∈ patterns, p <+: header) :
    (patterns.any fun p => p.isPrefixOf header) = true := by
  rcases h with ⟨p, hp, hpre⟩
  simp only [List.any_eq_true]
  exact ⟨p, hp, by simpa [List.isPrefixOf_iff_prefix] using hpre⟩

lemma any_isPrefixOf_eq_false {patterns : List Bytes} {header : Bytes}
    (h : ∀ p ∈ patterns, ¬ p <+: header) :
    (patterns.any fun p => p.isPrefixOf header) = false := by
  simp only [List.any_eq_false]
  intro p hp
  simpa [List.isPrefixOf_iff_prefix] using h p hp

lemma detect_eq_of_first_match (header : Bytes) :
    ∀ (db : List (String × List Bytes)) (i : Nat), i < db.length →
      (∃ p ∈ (db.getD i ("", [])).2, p <+: header) →
      (∀ j, j < i → ∀ p ∈ (db.getD j ("", [])).2, ¬ p <+: header) →
      detect_file_type header db = some (db.getD i ("", [])).1 := by
  intro db
  induction db with
  | nil => intro i hi; simp at hi
  | cons e rest ih =>
    intro i hi hmatch hearlier
    cases i with
    | zero =>
      simp only [List.getD_cons_zero] at hmatch ⊢
      simp [detect_file_type, any_isPrefixOf_eq_true hmatch]
    | succ i' =>
      have h0 : ∀ p ∈ e.2, ¬ p <+: header := by
        simpa using hearlier 0 (Nat.succ_pos i')
      simp only [List.getD_cons_succ]
      simp only [detect_file_type, any_isPrefixOf_eq_false h0, Bool.false_eq_true,
        if_false]
      exact ih i' (by simpa using hi) (by simpa using hmatch)
        (fun j hj => by simpa using hearlier (j + 1) (by omega))

lemma detect_none_of_no_match (header : Bytes) :
    ∀ db : List (String × List Bytes),
      (∀ e ∈ db, ∀ p ∈ e.2, ¬ p <+: header) → detect_file_type header db = none := by
  intro db
  induction db with
  | nil => intro _; rfl
  | cons e rest ih =>
    intro h
    have h0 : ∀ p ∈ e.2, ¬ p <+: header := h e (List.mem_cons_self e rest)
    simp only [detect_file_type, any_isPrefixOf_eq_false h0, Bool.false_eq_true, if_false]
    exact ih fun e' he' => h e' (List.mem_cons_of_mem _ he')

lemma prefix_of_take_iff {p h : Bytes} {n : Nat} (hp : p.length ≤ n) :
    p <+: h.take n ↔ p <+: h := by
  rw [List.prefix_take_iff]
  exact and_iff_left hp

lemma detect_take_eq (n : Nat) :
    ∀ db : List (String × List Bytes), (∀ e ∈ db, ∀ p ∈ e.2, p.length ≤ n) →
      ∀ h1 h2 : Bytes, h1.take n = h2.take n →
        detect_file_type h1 db = detect_file_type h2 db := by
  intro db
  induction db with
  | nil => intro _ h1 h2 _; rfl
  | cons e rest ih =>
    intro hlen h1 h2 hagree
    have hpat : ∀ p ∈ e.2, (p.isPrefixOf h1) = (p.isPrefixOf h2) := by
      intro p hp
      rw [Bool.eq_iff_iff]
      have hle : p.length ≤ n := hlen e (List.mem_cons_self e rest) p hp
      simp only [List.isPrefixOf_iff_prefix]
      rw [← prefix_of_take_iff hle, ← prefix_of_take_iff (h := h2) hle, hagree]
    have hany : (e.2.any fun p => p.isPrefixOf h1) = (e.2.any fun p => p.isPrefixOf h2) := by
      rw [Bool.eq_iff_iff]
      simp only [List.any_eq_true]
      constructor
      · rintro ⟨p, hp, hpre⟩; exact ⟨p, hp, (hpat p hp) ▸ hpre⟩
      · rintro ⟨p, hp, hpre⟩; exact ⟨p, hp, (hpat p hp).symm ▸ hpre⟩
    simp only [detect_file_type, hany]
    split
    · rfl
    · exact ih (fun e' he' => hlen e' (List.mem_cons_of_mem _ he')) h1 h2 hagree

/-- Claim C3: first-match semantics of `detect_file_type`.  If the header
starts with a cataloged pattern of the `i`-th entry of `MAGIC_DATABASE` and no
pattern of an earlier entry is a prefix of the header, the detector returns
the `i`-th entry's type name (declaration order, not longest match). -/
theorem detect_file_type_first_match (header : Bytes) (i : Nat)
    (hi : i < MAGIC_DATABASE.length)
    (hmatch : ∃ p ∈ (MAGIC_DATABASE.getD i ("", [])).2, p <+: header)
    (hearlier : ∀ j, j < i → ∀ p ∈ (MAGIC_DATABASE.getD j ("", [])).2, ¬ p <+: header) :
    detect_file_type header MAGIC_DATABASE = some (MAGIC_DATABASE.getD i ("", [])).1 :=
  detect_eq_of_first_match header MAGIC_DATABASE i hi hmatch hearlier

/-- Witness for C3: a PNG header matches the second entry (index 1), no JPEG
pattern is a prefix of it, and detection indeed returns that entry's name. -/
theorem detect_file_type_first_match_witness :
    detect_file_type [0x89, 0x50, 0x4E, 0x47, 0x0D, 0x0A, 0x1A, 0x0A] MAGIC_DATABASE
      = some (MAGIC_DATABASE.getD 1 ("", [])).1 :=
  detect_file_type_first_match [0x89, 0x50, 0x4E, 0x47, 0x0D, 0x0A, 0x1A, 0x0A] 1
    (by decide) (by decide) (by decide)

/-- Claim C7: a header that matches no cataloged pattern (in particular the
empty header, or one shorter than every pattern) is handled without error:
`detect_file_type` returns `none` and `analyze_file` reports the detected
type as the `"Unknown"` sentinel. -/
theorem detect_unknown_fallback (file_bytes : Bytes) (suffix : String)
    (h : ∀ e ∈ MAGIC_DATABASE, ∀ p ∈ e.2, ¬ p <+: file_bytes) :
    detect_file_type file_bytes MAGIC_DATABASE = none ∧
      (analyze_file file_bytes suffix MAGIC_DATABASE EXTENSION_MAP).1 = "Unknown" := by
  have htake : ∀ e ∈ MAGIC_DATABASE, ∀ p ∈ e.2,
      ¬ p <+: file_bytes.take (longest_magic_length MAGIC_DATABASE) := by
    intro e he p hp hpre
    exact h e he p hp (hpre.trans (List.take_prefix _ _))
  refine ⟨detect_none_of_no_match file_bytes MAGIC_DATABASE h, ?_⟩
  simp [analyze_file, detect_none_of_no_match _ MAGIC_DATABASE htake]

/-- Witness for C7: the empty header matches nothing, detection returns
`none`, and the analysis of an empty `.png` file detects `"Unknown"`. -/
theorem detect_unknown_fallback_witness :
    detect_file_type [] MAGIC_DATABASE = none ∧
      (analyze_file [] ".png" MAGIC_DATABASE EXTENSION_MAP).1 = "Unknown" :=
  detect_unknown_fallback [] ".png" (by decide)

/-- Claim C9: every pattern in `MAGIC_DATABASE` is at most 8 bytes long,
`longest_magic_length` (the number of bytes `analyze_file` reads) is exactly
8, and consequently detection only depends on the first 8 bytes of the
header: headers that agree on their first 8 bytes detect identically. -/
theorem detect_depends_only_on_first_8_bytes :
    longest_magic_length MAGIC_DATABASE = 8 ∧
      (∀ e ∈ MAGIC_DATABASE, ∀ p ∈ e.2, p.length ≤ 8) ∧
      ∀ h1 h2 : Bytes, h1.take 8 = h2.take 8 →
        detect_file_type h1 MAGIC_DATABASE = detect_file_type h2 MAGIC_DATABASE :=
  ⟨by decide, by decide, detect_take_eq 8 MAGIC_DATABASE (by decide)⟩

/-- Witness for C9: two headers sharing their first 8 bytes (a PNG signature)
but differing at byte 9 are classified identically. -/
theorem detect_depends_only_on_first_8_bytes_witness :
    detect_file_type [0x89, 0x50, 0x4E, 0x47, 0x0D, 0x0A, 0x1A, 0x0A, 1] MAGIC_DATABASE
      = detect_file_type [0x89, 0x50, 0x4E, 0x47, 0x0D, 0x0A, 0x1A, 0x0A, 2] MAGIC_DATABASE :=
  detect_depends_only_on_first_8_bytes.2.2 _ _ (by decide)

/-- Claim C10: the 3-byte `MP4` entry acts as a catch-all for zero-leading
headers: every header starting with three zero bytes is detected as `"MP4"`
(whatever follows), and indeed no pattern of any earlier entry starts with a
zero byte. -/
theorem mp4_zero_header_catch_all :
    (∀ rest : Bytes, detect_file_type (0x00 :: 0x00 :: 0x00 :: rest) MAGIC_DATABASE
        = some "MP4") ∧
      ∀ e ∈ MAGIC_DATABASE.dropLast, ∀ p ∈ e.2, 0 ∉ p.take 1 :=
  ⟨fun rest => by simp [detect_file_type, MAGIC_DATABASE, List.isPrefixOf], by decide⟩

/-- Witness for C10: the bare three-zero-byte header is classified `"MP4"`. -/
theorem mp4_zero_header_catch_all_witness :
    detect_file_type [0x00, 0x00, 0x00] MAGIC_DATABASE = some "MP4" :=
  mp4_zero_header_catch_all.1 []

lemma lookup_mem_values {l : List (String × String)} {k v : String}
    (h : l.lookup k = some v) : v ∈ l.map Prod.snd := by
  induction l with
  | nil => simp at h
  | cons p rest ih =>
    rcases p with ⟨a, b⟩
    rw [List.lookup_cons] at h
    by_cases hk : (k == a) = true
    · simp only [hk] at h
      simp only [Option.some.injEq] at h
      subst h
      exact List.mem_cons_self _ _
    · simp only [Bool.not_eq_true] at hk
      simp only [hk] at h
      exact List.mem_cons_of_mem _ (ih h)

lemma extension_map_values_nonempty {k v : String}
    (h : EXTENSION_MAP.lookup k = some v) : v ≠ "" := by
  have hv := lookup_mem_values h
  have hall : ∀ w ∈ EXTENSION_MAP.map Prod.snd, w ≠ "" := by decide
  exact hall v hv

/-- Claim C2: `analyze_file` reports a mismatch exactly when either (a) the
extension maps to an expected type different from the detected type, or
(b) the extension has no mapping and the detected type is not the
`"Unknown"` sentinel; otherwise the mismatch component is `none`, and the
two mismatch cases are mutually exclusive. -/
theorem analyze_file_mismatch_iff (file_bytes : Bytes) (suffix : String)
    (d : String) (e : Option String) (m : Option String)
    (hr : analyze_file file_bytes suffix MAGIC_DATABASE EXTENSION_MAP = (d, e, m)) :
    (m ≠ none ↔
      ((∃ t, e = some t ∧ t ≠ d) ∨ (e = none ∧ d ≠ "Unknown"))) ∧
      ¬((∃ t, e = some t ∧ t ≠ d) ∧ (e = none ∧ d ≠ "Unknown")) := by
  constructor
  · simp only [analyze_file, Prod.mk.injEq] at hr
    obtain ⟨hd', he', hm'⟩ := hr
    subst hd'; subst he'; subst hm'
    cases hlook : expected_type_from_extension suffix EXTENSION_MAP with
    | none =>
      by_cases hd : (detect_file_type
          (file_bytes.take (longest_magic_length MAGIC_DATABASE))
            MAGIC_DATABASE).getD "Unknown" = "Unknown"
      · simp [mismatch_message, hd]
      · simp [mismatch_message, hd]
    | some t =>
      have ht : t ≠ "" := extension_map_values_nonempty hlook
      by_cases htd : t = (detect_file_type
          (file_bytes.take (longest_magic_length MAGIC_DATABASE))
            MAGIC_DATABASE).getD "Unknown"
      · rw [← htd]
        simp [mismatch_message, ht]
      · simp only [mismatch_message, ne_eq]
        rw [if_pos ⟨ht, htd⟩]
        constructor
        · intro _
          exact Or.inl ⟨t, rfl, htd⟩
        · intro _
          simp
  · rintro ⟨⟨t, het, _⟩, ⟨hen, _⟩⟩
    rw [het] at hen
    exact Option.some_ne_none t hen

/-- Witness for C2: a PNG header in a file named `*.jpg` yields expected
`"JPEG"`, detected `"PNG"`, and a mismatch message naming both; the claimed
equivalence and exclusivity hold at this concrete outcome. -/
theorem analyze_file_mismatch_iff_witness :
    ((some "Extension suggests JPEG, but header indicates PNG." ≠
        (none : Option String)) ↔
      ((∃ t, some "JPEG" = some t ∧ t ≠ "PNG") ∨
        ((some "JPEG" : Option String) = none ∧ "PNG" ≠ "Unknown"))) ∧
      ¬((∃ t, some "JPEG" = some t ∧ t ≠ "PNG") ∧
        ((some "JPEG" : Option String) = none ∧ "PNG" ≠ "Unknown")) :=
  analyze_file_mismatch_iff [0x89, 0x50, 0x4E, 0x47, 0x0D, 0x0A, 0x1A, 0x0A] ".jpg"
    "PNG" (some "JPEG") (some "Extension suggests JPEG, but header indicates PNG.")
    (by decide)

end FileTypeDetector

namespace GeneratePins

/-- The three `ValueError` conditions raised by `generate_pins.py`. -/
inductive PinError
  | lengthNotPositive
  | countNegative
  | countTooLarge
deriving DecidableEq

/-- The most-significant-first decimal digits of `n % 10 ^ l`, zero-padded to
exactly `l` digits: the digit list printed by Python's `f"{n:0{l}d}"` for
`n < 10 ^ l`. -/
def padDigits : Nat → Nat → List Nat
  | 0, _ => []
  | l + 1, n => n / 10 ^ l % 10 :: padDigits l n

/-- The zero-padded `l`-digit decimal string of `n` (for `n < 10 ^ l`):
`f"{n:0{l}d}"`. -/
def toPin (l : Nat) (n : Nat) : String :=
  ⟨(padDigits l n).map Nat.digitChar⟩

/-- Numeric value of a most-significant-first digit list. -/
def digitsVal : List Nat → Nat
  | [] => 0
  | d :: ds => d * 10 ^ ds.length + digitsVal ds

/-- Numeric value of a PIN string (inverse of `toPin` on digit strings). -/
def pinVal (s : String) : Nat :=
  digitsVal (s.data.map fun c => c.toNat - 48)

/-- `_complex_random_digits`: derive one zero-padded digit string.  The
`length <= 0` check is performed before any random bytes are drawn; after it,
the SHA3-512 digest of 64 random bytes is decoded as a big-endian integer and
reduced modulo `10 ** length`.  The decoded integer is the parameter
`random_number`; the hashing itself is bijective noise outside the model. -/
def complex_random_digits (length : Int) (random_number : Nat) :
    Except PinError String :=
  if length ≤ 0 then Except.error PinError.lengthNotPositive
  else Except.ok (toPin length.toNat (random_number % 10 ^ length.toNat))

/-- The `while len(pins) < count` loop of `_generate_unique_pins`.  `entropy`
is the stream of integers decoded from the successive hash digests; each
iteration consumes one.  `none` means the stream was exhausted before the set
reached `count` members (the loop would keep running in Python).  The
`length ≤ 0` test is checked before consuming entropy because
`_complex_random_digits` raises prior to drawing random bytes. -/
def generate_unique_pins_loop (length count : Int) :
    List Nat → Finset String → Option (Except PinError (List String))
  | entropy, pins =>
    if count ≤ (pins.card : Int) then
      some (Except.ok (pins.sort (· ≤ ·)))
    else if length ≤ 0 then
      some (Except.error PinError.lengthNotPositive)
    else
      match entropy with
      | [] => none
      | n :: rest =>
        match complex_random_digits length n with
        | Except.error err => some (Except.error err)
        | Except.ok pin => generate_unique_pins_loop length count rest (insert pin pins)

/-- `_generate_unique_pins`: validate, then sample until `count` distinct
PINs exist, and return them sorted ascending (Python's `sorted` on strings is
the code-point lexicographic order, which is the `String` linear order here).
Python's `10 ** length` is an exact integer for `length ≥ 0` and a float for
`length < 0`; both compare against the integer `count` exactly as the
rational `(10 : ℚ) ^ length` does, which keeps the model exact. -/
def generate_unique_pins (length count : Int) (entropy : List Nat) :
    Option (Except PinError (List String)) :=
  if count < 0 then some (Except.error PinError.countNegative)
  else if (count : ℚ) > (10 : ℚ) ^ length then some (Except.error PinError.countTooLarge)
  else generate_unique_pins_loop length count entropy ∅

/-- `_write_output`: the content written to the output file, one `file.write`
call at a time (`timestamp` stands for `datetime.now().isoformat(...)`). -/
def write_output (timestamp : String) (pins_by_length : List (Int × List String)) :
    String :=
  pins_by_length.foldl
    (fun file g =>
      g.2.foldl (fun file pin => file ++ (pin ++ "\n"))
        (file ++ ("\n" ++ toString g.1 ++ "-digit PINs:\n")))
    ("PIN generation time: " ++ timestamp ++ "\n")

/-- `main` of `generate_pins.py` (the generation path, `--info` aside):
generate the 4-, 6- and 8-digit groups in that order, then write the file.
The `Except.ok` payload is the file content that `_write_output` produces;
an exception (`Except.error`) or a non-terminating generation (`none`) means
the output file is never opened or written. -/
def main (timestamp : String) (count4 count6 count8 : Int)
    (entropy4 entropy6 entropy8 : List Nat) : Option (Except PinError String) :=
  match generate_unique_pins 4 count4 entropy4 with
  | none => none
  | some (Except.error err) => some (Except.error err)
  | some (Except.ok pins4) =>
    match generate_unique_pins 6 count6 entropy6 with
    | none => none
    | some (Except.error err) => some (Except.error err)
    | some (Except.ok pins6) =>
      match generate_unique_pins 8 count8 entropy8 with
      | none => none
      | some (Except.error err) => some (Except.error err)
      | some (Except.ok pins8) =>
        some (Except.ok (write_output timestamp [(4, pins4), (6, pins6), (8, pins8)]))

lemma padDigits_length (l n : Nat) : (padDigits l n).length = l := by
  induction l with
  | zero => rfl
  | succ l ih => simp [padDigits, ih]

lemma padDigits_lt (l n : Nat) : ∀ d ∈ padDigits l n, d < 10 := by
  induction l with
  | zero => simp [padDigits]
  | succ l ih =>
    intro d hd
    rcases List.mem_cons.mp hd with h | h
    · subst h; exact Nat.mod_lt _ (by norm_num)
    · exact ih d h

lemma digitsVal_padDigits (l n : Nat) : digitsVal (padDigits l n) = n % 10 ^ l := by
  induction l with
  | zero => simp [padDigits, digitsVal, Nat.mod_one]
  | succ l ih =>
    show n / 10 ^ l % 10 * 10 ^ (padDigits l n).length + digitsVal (padDigits l n)
      = n % 10 ^ (l + 1)
    rw [padDigits_length, ih, Nat.mod_pow_succ]
    ring

lemma digitChar_isDigit : ∀ d, d < 10 → (Nat.digitChar d).isDigit = true := by decide

lemma digitChar_lt : ∀ a, a < 10 → ∀ b, b < 10 → a < b →
    Nat.digitChar a < Nat.digitChar b := by decide

lemma digitChar_toNat : ∀ d, d < 10 → (Nat.digitChar d).toNat - 48 = d := by decide

lemma toPin_data (l n : Nat) : (toPin l n).data = (padDigits l n).map Nat.digitChar := rfl

lemma toPin_length (l n : Nat) : (toPin l n).length = l := by
  show ((padDigits l n).map Nat.digitChar).length = l
  rw [List.length_map, padDigits_length]

lemma toPin_isDigit (l n : Nat) : ∀ c ∈ (toPin l n).data, c.isDigit = true := by
  rw [toPin_data]
  intro c hc
  rcases List.mem_map.mp hc with ⟨d, hd, rfl⟩
  exact digitChar_isDigit d (padDigits_lt l n d hd)

lemma pinVal_toPin (l n : Nat) : pinVal (toPin l n) = n % 10 ^ l := by
  have h1 : pinVal (toPin l n)
      = digitsVal ((padDigits l n).map fun d => (Nat.digitChar d).toNat - 48) := by
    rw [pinVal, toPin_data, List.map_map]
    rfl
  rw [h1,
    List.map_congr_left fun d hd => digitChar_toNat d (padDigits_lt l n d hd),
    List.map_id', digitsVal_padDigits]

lemma toPin_inj {l a b : Nat} (ha : a < 10 ^ l) (hb : b < 10 ^ l)
    (h : toPin l a = toPin l b) : a = b := by
  have hv := congrArg pinVal h
  rwa [pinVal_toPin, pinVal_toPin, Nat.mod_eq_of_lt ha, Nat.mod_eq_of_lt hb] at hv

lemma padDigits_lex (l : Nat) : ∀ a b : Nat, a % 10 ^ l < b % 10 ^ l →
    List.Lex (· < ·) ((padDigits l a).map Nat.digitChar)
      ((padDigits l b).map Nat.digitChar) := by
  induction l with
  | zero => intro a b h; simp [Nat.mod_one] at h
  | succ l ih =>
    intro a b h
    have hda : a / 10 ^ l % 10 < 10 := Nat.mod_lt _ (by norm_num)
    have hdb : b / 10 ^ l % 10 < 10 := Nat.mod_lt _ (by norm_num)
    have hA := Nat.mod_pow_succ (x := a) (b := 10) (k := l)
    have hB := Nat.mod_pow_succ (x := b) (b := 10) (k := l)
    simp only [padDigits, List.map_cons]
    rcases Nat.lt_trichotomy (a / 10 ^ l % 10) (b / 10 ^ l % 10) with hlt | heq | hgt
    · exact List.Lex.rel (digitChar_lt _ hda _ hdb hlt)
    · have hprod : 10 ^ l * (a / 10 ^ l % 10) = 10 ^ l * (b / 10 ^ l % 10) := by
        rw [heq]
      have htail : a % 10 ^ l < b % 10 ^ l := by omega
      rw [heq]
      exact List.Lex.cons (ih a b htail)
    · exfalso
      have h2 : b % 10 ^ l < 10 ^ l := Nat.mod_lt _ (Nat.pos_pow_of_pos l (by norm_num))
      have hmul : 10 ^ l * (b / 10 ^ l % 10) + 10 ^ l ≤ 10 ^ l * (a / 10 ^ l % 10) := by
        have hstep : b / 10 ^ l % 10 + 1 ≤ a / 10 ^ l % 10 := hgt
        calc 10 ^ l * (b / 10 ^ l % 10) + 10 ^ l
            = 10 ^ l * (b / 10 ^ l % 10 + 1) := by ring
          _ ≤ 10 ^ l * (a / 10 ^ l % 10) := Nat.mul_le_mul_left _ hstep
      omega

lemma toPin_lt_toPin {l a b : Nat} (ha : a < 10 ^ l) (hb : b < 10 ^ l) (h : a < b) :
    toPin l a < toPin l b := by
  rw [String.lt_iff_toList_lt]
  show List.Lex (· < ·) ((padDigits l a).map Nat.digitChar)
    ((padDigits l b).map Nat.digitChar)
  exact padDigits_lex l a b (by rwa [Nat.mod_eq_of_lt ha, Nat.mod_eq_of_lt hb])

lemma toPin_lt_toPin_iff {l a b : Nat} (ha : a < 10 ^ l) (hb : b < 10 ^ l) :
    toPin l a < toPin l b ↔ a < b := by
  constructor
  · intro hlt
    rcases Nat.lt_trichotomy a b with h | h | h
    · exact h
    · subst h; exact absurd hlt (lt_irrefl _)
    · exact absurd hlt (asymm (toPin_lt_toPin hb ha h))
  · exact toPin_lt_toPin ha hb

lemma complex_random_digits_pos {length : Int} (hl : 0 < length) (n : Nat) :
    complex_random_digits length n
      = Except.ok (toPin length.toNat (n % 10 ^ length.toNat)) := by
  rw [complex_random_digits, if_neg (by omega)]

lemma loop_done (length count : Int) (entropy : List Nat) (pins : Finset String)
    (h : count ≤ (pins.card : Int)) :
    generate_unique_pins_loop length count entropy pins
      = some (Except.ok (pins.sort (· ≤ ·))) := by
  cases entropy <;> (simp only [generate_unique_pins_loop]; rw [if_pos h])

lemma loop_no_error (length count : Int) (hl : 0 < length) :
    ∀ (entropy : List Nat) (pins : Finset String) (err : PinError),
      generate_unique_pins_loop length count entropy pins ≠ some (Except.error err) := by
  intro entropy
  induction entropy with
  | nil =>
    intro pins err h
    simp only [generate_unique_pins_loop] at h
    split_ifs at h with h1 h2
    · simp at h
    · omega
  | cons n rest ih =>
    intro pins err h
    simp only [generate_unique_pins_loop] at h
    split_ifs at h with h1 h2
    · simp at h
    · omega
    · simp only [complex_random_digits_pos hl] at h
      exact ih _ err h

lemma loop_ok_spec (length count : Int) (hl : 0 < length) :
    ∀ (entropy : List Nat) (pins : Finset String) (out : List String),
      (pins.card : Int) ≤ count →
      (∀ s ∈ pins, ∃ n, n < 10 ^ length.toNat ∧ s = toPin length.toNat n) →
      generate_unique_pins_loop length count entropy pins = some (Except.ok out) →
      ∃ S : Finset String, out = S.sort (· ≤ ·) ∧ (S.card : Int) = count ∧
        ∀ s ∈ S, ∃ n, n < 10 ^ length.toNat ∧ s = toPin length.toNat n := by
  intro entropy
  induction entropy with
  | nil =>
    intro pins out hcard hmem hrun
    simp only [generate_unique_pins_loop] at hrun
    split_ifs at hrun with h1 h2
    · simp only [Option.some.injEq, Except.ok.injEq] at hrun
      exact ⟨pins, hrun.symm, le_antisymm hcard h1, hmem⟩
    · simp at hrun
  | cons n rest ih =>
    intro pins out hcard hmem hrun
    simp only [generate_unique_pins_loop] at hrun
    split_ifs at hrun with h1 h2
    · simp only [Option.some.injEq, Except.ok.injEq] at hrun
      exact ⟨pins, hrun.symm, le_antisymm hcard h1, hmem⟩
    · omega
    · simp only [complex_random_digits_pos hl] at hrun
      apply ih (insert (toPin length.toNat (n % 10 ^ length.toNat)) pins) out ?_ ?_ hrun
      · have h3 := Finset.card_insert_le (toPin length.toNat (n % 10 ^ length.toNat)) pins
        omega
      · intro s hs
        rcases Finset.mem_insert.mp hs with h | h
        · exact ⟨n % 10 ^ length.toNat,
            Nat.mod_lt _ (Nat.pos_pow_of_pos _ (by norm_num)), h⟩
        · exact hmem s h

lemma loop_reaches_count (length count : Int) (hl : 0 < length) :
    ∀ (entropy : List Nat) (pins : Finset String),
      count ≤ (((pins ∪
        (entropy.map fun n => toPin length.toNat (n % 10 ^ length.toNat)).toFinset).card
          : Int)) →
      ∃ out, generate_unique_pins_loop length count entropy pins
        = some (Except.ok out) := by
  intro entropy
  induction entropy with
  | nil =>
    intro pins hcard
    simp only [List.map_nil, List.toFinset_nil, Finset.union_empty] at hcard
    refine ⟨pins.sort (· ≤ ·), ?_⟩
    simp only [generate_unique_pins_loop]
    rw [if_pos hcard]
  | cons n rest ih =>
    intro pins hcard
    by_cases h1 : count ≤ (pins.card : Int)
    · refine ⟨pins.sort (· ≤ ·), ?_⟩
      simp only [generate_unique_pins_loop]
      rw [if_pos h1]
    · have hset : insert (toPin length.toNat (n % 10 ^ length.toNat)) pins ∪
          (rest.map fun n => toPin length.toNat (n % 10 ^ length.toNat)).toFinset =
          pins ∪
            ((n :: rest).map fun n => toPin length.toNat (n % 10 ^ length.toNat)).toFinset := by
        simp [List.map_cons, List.toFinset_cons, Finset.insert_union, Finset.union_insert]
      obtain ⟨out, hout⟩ := ih (insert (toPin length.toNat (n % 10 ^ length.toNat)) pins)
        (by rw [hset]; exact hcard)
      refine ⟨out, ?_⟩
      simp only [generate_unique_pins_loop]
      rw [if_neg h1, if_neg (by omega)]
      simp only [complex_random_digits_pos hl]
      exact hout

lemma generate_error_iff (length count : Int) (entropy : List Nat) :
    (∃ err, generate_unique_pins length count entropy = some (Except.error err)) ↔
      (count < 0 ∨ (count : ℚ) > (10 : ℚ) ^ length ∨ (length ≤ 0 ∧ 0 < count)) := by
  by_cases h0 : count < 0
  · exact iff_of_true ⟨PinError.countNegative, by simp [generate_unique_pins, h0]⟩
      (Or.inl h0)
  · by_cases h1 : (count : ℚ) > (10 : ℚ) ^ length
    · exact iff_of_true ⟨PinError.countTooLarge, by simp [generate_unique_pins, h0, h1]⟩
        (Or.inr (Or.inl h1))
    · by_cases h2 : 0 < count
      · by_cases h3 : length ≤ 0
        · apply iff_of_true
          · refine ⟨PinError.lengthNotPositive, ?_⟩
            simp only [generate_unique_pins, if_neg h0, if_neg h1]
            cases entropy with
            | nil =>
              simp only [generate_unique_pins_loop]
              rw [if_neg (by simp only [Finset.card_empty, Nat.cast_zero]; omega),
                if_pos h3]
            | cons n rest =>
              simp only [generate_unique_pins_loop]
              rw [if_neg (by simp only [Finset.card_empty, Nat.cast_zero]; omega),
                if_pos h3]
          · exact Or.inr (Or.inr ⟨h3, h2⟩)
        · apply iff_of_false
          · rintro ⟨err, herr⟩
            simp only [generate_unique_pins, if_neg h0, if_neg h1] at herr
            exact loop_no_error length count (by omega) entropy ∅ err herr
          · rintro (h | h | ⟨h, _⟩)
            · exact h0 h
            · exact h1 h
            · exact h3 h
      · apply iff_of_false
        · rintro ⟨err, herr⟩
          simp only [generate_unique_pins, if_neg h0, if_neg h1] at herr
          rw [loop_done length count entropy ∅
            (by simp only [Finset.card_empty, Nat.cast_zero]; omega)] at herr
          simp at herr
        · rintro (h | h | ⟨_, h⟩)
          · exact h0 h
          · exact h1 h
          · exact h2 h

/-- Claim C1 (corrected): `_generate_unique_pins` raises a `ValueError`
exactly when `count < 0`, or `count > 10 ** length`, or `length <= 0` with
`count > 0`.  The original claim also asserted failure for every `length <= 0`
regardless of `count`, but for `count = 0` the sampling loop never runs, the
`length <= 0` check inside `_complex_random_digits` is never reached, and the
call returns the empty list (see the counterexample). -/
theorem generate_unique_pins_error_iff (length count : Int) (entropy : List Nat) :
    (∃ err, generate_unique_pins length count entropy = some (Except.error err)) ↔
      (count < 0 ∨ (count : ℚ) > (10 : ℚ) ^ length ∨ (length ≤ 0 ∧ 0 < count)) :=
  generate_error_iff length count entropy

/-- Witness for C1: at `length = 0`, `count = 2 > 10 ^ 0`, the call fails
with a validation error. -/
theorem generate_unique_pins_error_iff_witness :
    ∃ err, generate_unique_pins 0 2 [] = some (Except.error err) :=
  (generate_unique_pins_error_iff 0 2 []).mpr (Or.inr (Or.inl (by norm_num)))

/-- Counterexample to C1 as stated: with `length = 0` and `count = 0` the
call does not raise; it returns the empty list.  This refutes "for every
`length <= 0` the call fails regardless of `count`". -/
theorem generate_unique_pins_zero_zero_no_error :
    generate_unique_pins 0 0 [] = some (Except.ok []) ∧
      ∀ err, generate_unique_pins 0 0 [] ≠ some (Except.error err) := by
  have h : generate_unique_pins 0 0 [] = some (Except.ok []) := by
    simp only [generate_unique_pins]
    rw [if_neg (by norm_num), if_neg (by norm_num)]
    simp only [generate_unique_pins_loop]
    rw [if_pos (by simp)]
    simp [Finset.sort_empty]
  exact ⟨h, fun err herr => by rw [h] at herr; simp at herr⟩

/-- Claim C4: whenever `_generate_unique_pins` returns (with `length > 0` and
`0 ≤ count ≤ 10 ** length`), the returned list has exactly `count` elements,
they are pairwise distinct, each is a string of exactly `length` decimal
digits (zero-padded), and the list is strictly ascending both in the
lexicographic string order (Python's `sorted`) and numerically (`pinVal`). -/
theorem generate_unique_pins_ok_spec (length count : Int) (entropy : List Nat)
    (out : List String) (hl : 0 < length) (hc0 : 0 ≤ count)
    (hcm : (count : ℚ) ≤ (10 : ℚ) ^ length)
    (hrun : generate_unique_pins length count entropy = some (Except.ok out)) :
    (out.length : Int) = count ∧ out.Nodup ∧
      (∀ s ∈ out, s.length = length.toNat ∧ ∀ c ∈ s.data, c.isDigit = true) ∧
      List.Sorted (· < ·) out ∧
      List.Pairwise (fun s t => pinVal s < pinVal t) out := by
  simp only [generate_unique_pins, if_neg (not_lt.mpr hc0),
    if_neg (not_lt.mpr hcm)] at hrun
  obtain ⟨S, rfl, hScard, hSmem⟩ := loop_ok_spec length count hl entropy ∅ out
    (by simpa using hc0) (by simp) hrun
  refine ⟨?_, Finset.sort_nodup _ S, ?_, Finset.sort_sorted_lt S, ?_⟩
  · rw [Finset.length_sort]
    exact hScard
  · intro s hs
    obtain ⟨n, hn, rfl⟩ := hSmem s (Finset.mem_sort (α := String) (· ≤ ·) |>.mp hs)
    exact ⟨toPin_length _ n, toPin_isDigit _ n⟩
  · refine (Finset.sort_sorted_lt S).imp_of_mem ?_
    intro a b ha hb hab
    obtain ⟨na, hna, rfl⟩ := hSmem a (Finset.mem_sort (α := String) (· ≤ ·) |>.mp ha)
    obtain ⟨nb, hnb, rfl⟩ := hSmem b (Finset.mem_sort (α := String) (· ≤ ·) |>.mp hb)
    rw [pinVal_toPin, pinVal_toPin, Nat.mod_eq_of_lt hna, Nat.mod_eq_of_lt hnb]
    exact (toPin_lt_toPin_iff hna hnb).mp hab

/-- Witness for C4: `length = 1`, `count = 1`, one entropy value `5`; the run
returns `["5"]` and the claimed properties hold of it. -/
theorem generate_unique_pins_ok_spec_witness :
    (((["5"] : List String).length : Int) = 1 ∧ (["5"] : List String).Nodup ∧
      (∀ s ∈ (["5"] : List String), s.length = (1 : Int).toNat ∧
        ∀ c ∈ s.data, c.isDigit = true) ∧
      List.Sorted (· < ·) (["5"] : List String) ∧
      List.Pairwise (fun s t => pinVal s < pinVal t) (["5"] : List String)) :=
  generate_unique_pins_ok_spec 1 1 [5] ["5"] (by norm_num) (by norm_num)
    (by norm_num)
    (by
      have hpin : toPin (1 : Int).toNat (5 % 10 ^ (1 : Int).toNat) = "5" := by decide
      simp only [generate_unique_pins]
      rw [if_neg (by norm_num), if_neg (by norm_num)]
      simp only [generate_unique_pins_loop]
      rw [if_neg (by simp only [Finset.card_empty, Nat.cast_zero]; norm_num),
        if_neg (by norm_num)]
      simp only [complex_random_digits_pos (show (0 : Int) < 1 by norm_num), hpin]
      rw [if_pos (by simp)]
      rw [LawfulSingleton.insert_emptyc_eq, Finset.sort_singleton])

lemma q_pow4 : ((10 : ℚ) ^ (4 : Int)) = 10000 := by
  rw [show ((4 : Int)) = ((4 : Nat) : Int) from rfl, zpow_natCast]
  norm_num

lemma nat_pow4 : (10 : Nat) ^ 4 = 10000 := by norm_num

/-- Claim C5: at the boundary `count = 10 ^ length`.  (a) Whenever the run
with `count = 10000`, `length = 4` returns, it returns all 10000 possible
4-digit strings exactly once; (b) such a terminating run exists (take a
digest stream enumerating all residues); (c) `count = 10001` fails with the
"cannot generate" validation error for every digest stream — in particular
for the empty one, i.e. before any digit derivation occurs. -/
theorem pin_boundary :
    (∀ entropy out, generate_unique_pins 4 10000 entropy = some (Except.ok out) →
      out.length = 10000 ∧ out.Nodup ∧
        ∀ s, (s ∈ out ↔ ∃ n, n < 10000 ∧ s = toPin 4 n)) ∧
      (∃ entropy out, generate_unique_pins 4 10000 entropy = some (Except.ok out)) ∧
      (∀ entropy, generate_unique_pins 4 10001 entropy
        = some (Except.error PinError.countTooLarge)) := by
  have hnn : ¬ (((10000 : Int) : ℚ) > (10 : ℚ) ^ (4 : Int)) := by
    rw [q_pow4]
    norm_num
  refine ⟨?_, ?_, ?_⟩
  · intro entropy out hrun
    simp only [generate_unique_pins, if_neg (by norm_num : ¬ (10000 : Int) < 0),
      if_neg hnn] at hrun
    obtain ⟨S, rfl, hScard, hSmem⟩ := loop_ok_spec 4 10000 (by norm_num) entropy ∅ out
      (by simp only [Finset.card_empty, Nat.cast_zero]; norm_num) (by simp) hrun
    have hSmem' : ∀ s ∈ S, ∃ n, n < 10000 ∧ s = toPin 4 n := by
      intro s hs
      obtain ⟨n, hn, rfl⟩ := hSmem s hs
      exact ⟨n, by rw [← nat_pow4]; exact hn, rfl⟩
    have hScard' : S.card = 10000 := by exact_mod_cast hScard
    have hinj : Set.InjOn (toPin 4) ↑(Finset.range 10000) := by
      intro a ha b hb hab
      simp only [Finset.coe_range, Set.mem_Iio] at ha hb
      exact toPin_inj (by rw [nat_pow4]; exact ha) (by rw [nat_pow4]; exact hb) hab
    have hAcard : ((Finset.range 10000).image (toPin 4)).card = 10000 := by
      rw [Finset.card_image_of_injOn hinj, Finset.card_range]
    have hsub : S ⊆ (Finset.range 10000).image (toPin 4) := by
      intro s hs
      obtain ⟨n, hn, rfl⟩ := hSmem' s hs
      exact Finset.mem_image.mpr ⟨n, Finset.mem_range.mpr hn, rfl⟩
    have hSA : S = (Finset.range 10000).image (toPin 4) :=
      Finset.eq_of_subset_of_card_le hsub (by rw [hAcard, hScard'])
    refine ⟨?_, Finset.sort_nodup _ S, ?_⟩
    · rw [Finset.length_sort, hScard']
    · intro s
      rw [Finset.mem_sort, hSA, Finset.mem_image]
      constructor
      · rintro ⟨n, hn, rfl⟩
        exact ⟨n, Finset.mem_range.mp hn, rfl⟩
      · rintro ⟨n, hn, rfl⟩
        exact ⟨n, Finset.mem_range.mpr hn, rfl⟩
  · have hmap : (List.range 10000).map
        (fun n => toPin (4 : Int).toNat (n % 10 ^ (4 : Int).toNat))
        = (List.range 10000).map (toPin 4) := by
      apply List.map_congr_left
      intro n hn
      show toPin 4 (n % 10 ^ 4) = toPin 4 n
      rw [Nat.mod_eq_of_lt (by rw [nat_pow4]; exact List.mem_range.mp hn)]
    have hnodup : ((List.range 10000).map (toPin 4)).Nodup := by
      refine (List.nodup_range 10000).map_on ?_
      intro a ha b hb hab
      exact toPin_inj (by rw [nat_pow4]; exact List.mem_range.mp ha)
        (by rw [nat_pow4]; exact List.mem_range.mp hb) hab
    have hcard : ((List.range 10000).map (toPin 4)).toFinset.card = 10000 := by
      rw [List.toFinset_card_of_nodup hnodup, List.length_map, List.length_range]
    obtain ⟨out, hout⟩ := loop_reaches_count 4 10000 (by norm_num)
      (List.range 10000) ∅ (by
        rw [Finset.empty_union, hmap, hcard]
        norm_num)
    refine ⟨List.range 10000, out, ?_⟩
    simp only [generate_unique_pins, if_neg (by norm_num : ¬ (10000 : Int) < 0),
      if_neg hnn]
    exact hout
  · intro entropy
    simp only [generate_unique_pins]
    rw [if_neg (by norm_num : ¬ (10001 : Int) < 0),
      if_pos (show ((10001 : Int) : ℚ) > (10 : ℚ) ^ (4 : Int) by rw [q_pow4]; norm_num)]

/-- Witness for C5: the failing side evaluated at the empty digest stream,
and the existence side, both read off the theorem. -/
theorem pin_boundary_witness :
    generate_unique_pins 4 10001 [] = some (Except.error PinError.countTooLarge) ∧
      ∃ entropy out, generate_unique_pins 4 10000 entropy = some (Except.ok out) :=
  ⟨pin_boundary.2.2 [], pin_boundary.2.1⟩

/-- The condition under which `_generate_unique_pins length count` raises a
`ValueError` (see `generate_error_iff`). -/
def pin_validation_fails (length count : Int) : Prop :=
  count < 0 ∨ (count : ℚ) > (10 : ℚ) ^ length ∨ (length ≤ 0 ∧ 0 < count)

instance (length count : Int) : Decidable (pin_validation_fails length count) := by
  unfold pin_validation_fails
  infer_instance

/-- Claim C6: if any of the three per-length validations fails, `main` aborts
with an error and the output file is never opened or written: for no digest
streams does the run produce an `Except.ok` file content (the only branch of
`main` that reaches `_write_output`). -/
theorem main_aborts_without_writing (timestamp : String) (count4 count6 count8 : Int)
    (entropy4 entropy6 entropy8 : List Nat)
    (h : pin_validation_fails 4 count4 ∨ pin_validation_fails 6 count6 ∨
      pin_validation_fails 8 count8) :
    ∀ file_content,
      main timestamp count4 count6 count8 entropy4 entropy6 entropy8 ≠
        some (Except.ok file_content) := by
  intro file_content hok
  rcases h with h4 | h6 | h8
  · obtain ⟨err, herr⟩ := (generate_error_iff 4 count4 entropy4).mpr h4
    rw [main, herr] at hok
    simp at hok
  · obtain ⟨err, herr⟩ := (generate_error_iff 6 count6 entropy6).mpr h6
    rw [main] at hok
    cases hg4 : generate_unique_pins 4 count4 entropy4 with
    | none => rw [hg4] at hok; simp at hok
    | some r4 =>
      cases r4 with
      | error e4 => rw [hg4] at hok; simp at hok
      | ok pins4 => rw [hg4, herr] at hok; simp at hok
  · obtain ⟨err, herr⟩ := (generate_error_iff 8 count8 entropy8).mpr h8
    rw [main] at hok
    cases hg4 : generate_unique_pins 4 count4 entropy4 with
    | none => rw [hg4] at hok; simp at hok
    | some r4 =>
      cases r4 with
      | error e4 => rw [hg4] at hok; simp at hok
      | ok pins4 =>
        rw [hg4] at hok
        cases hg6 : generate_unique_pins 6 count6 entropy6 with
        | none => rw [hg6] at hok; simp at hok
        | some r6 =>
          cases r6 with
          | error e6 => rw [hg6] at hok; simp at hok
          | ok pins6 => rw [hg6, herr] at hok; simp at hok

/-- Witness for C6: a negative `--count4` (here `-1`) never yields a written
file, whatever the other arguments. -/
theorem main_aborts_without_writing_witness :
    main "T" (-1) 10 10 [] [] [] ≠ some (Except.ok "") :=
  main_aborts_without_writing "T" (-1) 10 10 [] [] []
    (Or.inl (Or.inl (by norm_num))) ""

lemma string_foldl_append (l : List String) :
    ∀ a : String, l.foldl (fun r s => r ++ s) a = a ++ String.join l := by
  induction l with
  | nil =>
    intro a
    show a = a ++ ""
    rw [String.append_empty]
  | cons x xs ih =>
    intro a
    show xs.foldl _ (a ++ x) = a ++ String.join (x :: xs)
    rw [ih (a ++ x)]
    have hx : String.join (x :: xs) = x ++ String.join xs := by
      show xs.foldl _ ("" ++ x) = _
      rw [ih ("" ++ x), String.empty_append]
    rw [hx, String.append_assoc]

lemma string_join_cons (x : String) (xs : List String) :
    String.join (x :: xs) = x ++ String.join xs := by
  show xs.foldl _ ("" ++ x) = _
  rw [string_foldl_append xs ("" ++ x), String.empty_append]

lemma string_join_append (l₁ l₂ : List String) :
    String.join (l₁ ++ l₂) = String.join l₁ ++ String.join l₂ := by
  induction l₁ with
  | nil =>
    show String.join l₂ = String.join [] ++ String.join l₂
    rw [show String.join [] = "" from rfl, String.empty_append]
  | cons x xs ih =>
    rw [List.cons_append, string_join_cons, string_join_cons, ih,
      String.append_assoc]

lemma pins_foldl_append (pins : List String) :
    ∀ a : String, pins.foldl (fun file pin => file ++ (pin ++ "\n")) a
      = a ++ String.join (pins.map fun pin => pin ++ "\n") := by
  induction pins with
  | nil =>
    intro a
    show a = a ++ String.join []
    rw [show String.join [] = "" from rfl, String.append_empty]
  | cons x xs ih =>
    intro a
    show xs.foldl _ (a ++ (x ++ "\n")) = _
    rw [ih (a ++ (x ++ "\n")), List.map_cons, string_join_cons, String.append_assoc]

lemma groups_foldl_append (gs : List (Int × List String)) :
    ∀ a : String,
      gs.foldl
        (fun file g =>
          g.2.foldl (fun file pin => file ++ (pin ++ "\n"))
            (file ++ ("\n" ++ toString g.1 ++ "-digit PINs:\n"))) a
      = a ++ String.join (gs.map fun g =>
          ("\n" ++ toString g.1 ++ "-digit PINs:\n")
            ++ String.join (g.2.map fun pin => pin ++ "\n")) := by
  induction gs with
  | nil =>
    intro a
    show a = a ++ String.join []
    rw [show String.join [] = "" from rfl, String.append_empty]
  | cons g gs ih =>
    intro a
    show gs.foldl _
      (g.2.foldl _ (a ++ ("\n" ++ toString g.1 ++ "-digit PINs:\n"))) = _
    rw [pins_foldl_append, ih, List.map_cons, string_join_cons]
    simp only [String.append_assoc]

/-- The line layout stated by the specification for the output file: one
timestamp header line, then for each group (in the supplied order) a blank
line, a `"<length>-digit PINs:"` label line, and one line per PIN in the
group's list order.  This is the spec-side description, to be compared with
`write_output` as translated from the source. -/
def output_lines_spec (timestamp : String) (pins_by_length : List (Int × List String)) :
    List String :=
  ("PIN generation time: " ++ timestamp) ::
    pins_by_length.flatMap fun g => "" :: (toString g.1 ++ "-digit PINs:") :: g.2

/-- Claim C8: the file produced by `_write_output` consists of exactly the
lines of `output_lines_spec`, each terminated by a newline; and on the
spec's concrete example the file content is the expected byte sequence. -/
theorem write_output_layout :
    (∀ (timestamp : String) (pins_by_length : List (Int × List String)),
      write_output timestamp pins_by_length
        = String.join ((output_lines_spec timestamp pins_by_length).map
            fun line => line ++ "\n")) ∧
      write_output "T" [(4, ["0001", "0002"]), (6, ["000003"])]
        = "PIN generation time: T\n\n4-digit PINs:\n0001\n0002\n\n6-digit PINs:\n000003\n" := by
  constructor
  · intro timestamp gs
    rw [write_output, groups_foldl_append, output_lines_spec, List.map_cons,
      string_join_cons]
    have hblocks : ∀ gs : List (Int × List String),
        String.join ((gs.flatMap fun g =>
            "" :: (toString g.1 ++ "-digit PINs:") :: g.2).map fun line => line ++ "\n")
          = String.join (gs.map fun g =>
              ("\n" ++ toString g.1 ++ "-digit PINs:\n")
                ++ String.join (g.2.map fun pin => pin ++ "\n")) := by
      intro gs
      induction gs with
      | nil => rfl
      | cons g gs ih =>
        rw [List.flatMap_cons, List.map_append, string_join_append, ih,
          List.map_cons, string_join_cons, List.map_cons, List.map_cons,
          string_join_cons, string_join_cons]
        have hsplit : ("-digit PINs:\n" : String) = "-digit PINs:" ++ "\n" := rfl
        simp only [String.empty_append, String.append_assoc, hsplit]
    rw [hblocks]
  · rfl

end GeneratePins
